import Mathlib

/-!
Shallow embedding of `corequeue.py` (a lease-based job queue over a redis-like
key-value store).  Redis state is modelled explicitly: lists are a map from key
to `List`, hashes are either association lists (the lease table, which the code
iterates over) or partial functions.  Machine-level details that the claims
depend on are modelled faithfully and documented next to each definition:
the Python-2 client stringifies `None` arguments, Python-2 mixed-type
comparison orders every `str` above every `int`, and `pickle.loads` of a
non-bytes object raises `TypeError`.  Serialization itself is modelled as the
identity on an opaque object universe.
-/

namespace Corequeue

/-- Byte strings (redis keys, job ids): modelled as lists of characters. -/
abbrev Str := List Char

/-- Opaque universe of Python objects (payloads, results).  `0` models the
falsy objects (`None`, `""`, `{}`, `b""`); everything else is truthy. -/
abbrev Obj := Nat

/-- Python truthiness of an object (`if not data` checks). -/
def truthy (o : Obj) : Bool := o != 0

/-- `pickle.dumps`: serialization is modelled as the identity on `Obj`;
the bytes/object type distinction is carried by `MsgArg` below. -/
def dumps (o : Obj) : Obj := o

/-- Python exceptions raised by the source. -/
inductive PyError where
  | typeError
  | attributeError
  | valueError (msg : String)
  | notImplementedError (msg : String)
deriving DecidableEq

/-- An argument passed where `pickle.loads` expects pickled bytes:
either genuine pickled bytes, a raw (unpickled) Python object, or `None`. -/
inductive MsgArg where
  | pickled (o : Obj)
  | raw (o : Obj)
  | pynone
deriving DecidableEq

/-- `pickle.loads`: succeeds on pickled bytes, raises `TypeError` when handed
a raw object or `None` instead of bytes. -/
def loads : MsgArg → Except PyError Obj
  | .pickled o => .ok o
  | .raw _ => .error .typeError
  | .pynone => .error .typeError

/-- `Job`: id, unpickled data, and `priority` (the name of the source list,
as stored by `Job.__init__`). -/
structure Job where
  id : Str
  data : Obj
  priority : Str
deriving DecidableEq

/-- `Job.__init__(msgid, msgdata, priority, q)`: unpickles `msgdata`
(`self.data = pickle.loads(msgdata)`), which raises when `msgdata` is not
pickled bytes.  The queue-class check always passes for jobs built by
`CoreQueue`, so it is not modelled. -/
def Job.make (msgid : Str) (msgdata : MsgArg) (priority : Str) :
    Except PyError Job :=
  match loads msgdata with
  | .ok d => .ok ⟨msgid, d, priority⟩
  | .error e => .error e

/-- The suffix `":HIGH"` of the high-priority list key. -/
def highSuffix : Str := (":HIGH").toList

/-- The suffix `":RESULT"` of result keys. -/
def resultSuffix : Str := (":RESULT").toList

/-- The string the Python-2 redis client sends when handed the object `None`
(old redis-py stringifies unknown argument types). -/
def noneStr : Str := ("None").toList

/-- The string the client sends for the integer `0` that `put` passes as the
`priority` argument of the returned `Job`. -/
def zeroStr : Str := ("0").toList

/-- Queue configuration (`CoreQueue.__init__` keyword arguments). -/
structure QCfg where
  name : Str
  max_attempts : Nat := 5
  job_timeout : Nat := 3600
  with_results : Bool := false
  with_ack : Bool := false
  with_priority : Bool := false
  keep_dead : Bool := false

/-- `self.high`: the high-priority list key `name + ":HIGH"` when
`with_priority` is set, else `None`. -/
def QCfg.high (c : QCfg) : Option Str :=
  if c.with_priority then some (c.name ++ highSuffix) else none

/-- `self.result_suffix`: `":RESULT"` when `with_results` is set, else `None`. -/
def QCfg.result_suffix (c : QCfg) : Option Str :=
  if c.with_results then some resultSuffix else none

/-- The redis state a queue operates on.  `lists` maps a key to the list
stored at it (head = leftmost element); `locked` is the `name:LOCKED` hash as
an association list (the code iterates over its snapshot); `attempts`, `dead`
and `ack` are the remaining hashes; `payloads` and `results` are the
top-level string keys. -/
structure QState where
  lists : Str → List Str := fun _ => []
  payloads : Str → Option Obj := fun _ => none
  locked : List (Str × Nat) := []
  attempts : Str → Option Nat := fun _ => none
  dead : Str → Option Nat := fun _ => none
  ack : Str → Option Nat := fun _ => none
  results : Str → Option Obj := fun _ => none

/-- A fresh backend with no keys. -/
def QState.empty : QState := {}

/-- Hash set on a function-modelled hash. -/
def hset {α : Type} (f : Str → Option α) (k : Str) (v : α) : Str → Option α :=
  fun x => if x = k then some v else f x

/-- Hash delete on a function-modelled hash. -/
def hdel {α : Type} (f : Str → Option α) (k : Str) : Str → Option α :=
  fun x => if x = k then none else f x

/-- `HINCRBY f k n`: a missing field is treated as `0`, then incremented. -/
def hincrby (f : Str → Option Nat) (k : Str) (n : Nat) : Str → Option Nat :=
  fun x => if x = k then some ((f k).getD 0 + n) else f x

/-- `HEXISTS` on the association-list hash. -/
def hexistsL (l : List (Str × Nat)) (k : Str) : Bool :=
  l.any (fun p => p.1 = k)

/-- `HDEL` on the association-list hash: removes the binding of `k`. -/
def hdelL (l : List (Str × Nat)) (k : Str) : List (Str × Nat) :=
  l.filter (fun p => p.1 ≠ k)

/-- `HSET` on the association-list hash: updates in place or prepends. -/
def hsetL (l : List (Str × Nat)) (k : Str) (v : Nat) : List (Str × Nat) :=
  if hexistsL l k then l.map (fun p => if p.1 = k then (k, v) else p)
  else (k, v) :: l

/-- `LPUSH k v`: prepends to the list stored at `k`. -/
def lpush (f : Str → List Str) (k v : Str) : Str → List Str :=
  fun x => if x = k then v :: f k else f x

/-- `RPUSH k v`: appends to the list stored at `k`. -/
def rpush (f : Str → List Str) (k v : Str) : Str → List Str :=
  fun x => if x = k then f k ++ [v] else f x

/-- `RPOP`: pops the rightmost (tail) element; `none` on an empty list. -/
def rpop : List Str → Option Str × List Str
  | [] => (none, [])
  | [a] => (some a, [])
  | a :: b :: rest =>
    let r := rpop (b :: rest)
    (r.1, a :: r.2)

/-- Python substring membership `sub in big` on byte strings. -/
def pyIn (sub : Str) : Str → Bool
  | [] => sub.isEmpty
  | c :: rest => sub.isPrefixOf (c :: rest) || pyIn sub rest

/-- The list `clean_jobs` re-pushes a reclaimed id onto:
`if self.high and self.high in item: lpush(self.high, item)
else: lpush(self.name, item)` (lane inferred from the id-embedded marker). -/
def targetLane (c : QCfg) (k : Str) : Str :=
  match c.high with
  | some hk => if pyIn hk k then hk else c.name
  | none => c.name

/-- One iteration of the `clean_jobs` loop over the lease-table snapshot:
if the entry's timestamp has expired (`ts + job_timeout < now`), delete the
lease and, when the payload key still exists, re-push the id onto the lane
inferred from its marker.  Attempts are never touched. -/
def cleanStep (c : QCfg) (now : Nat) (s : QState) (it : Str × Nat) : QState :=
  if it.2 + c.job_timeout < now then
    if (s.payloads it.1).isSome then
      { s with locked := hdelL s.locked it.1,
               lists := lpush s.lists (targetLane c it.1) it.1 }
    else
      { s with locked := hdelL s.locked it.1 }
  else s

/-- The `for item in locks:` loop of `clean_jobs`, iterating over the
`HGETALL` snapshot of the lease table. -/
def cleanLoop (c : QCfg) (now : Nat) : List (Str × Nat) → QState → QState
  | [], s => s
  | it :: rest, s => cleanLoop c now rest (cleanStep c now s it)

/-- `CoreQueue.clean_jobs`: scans the lease table and reclaims expired
leases.  The stored timestamp is interpreted numerically (the source uses
`eval` on it). -/
def clean_jobs (c : QCfg) (s : QState) (now : Nat) : QState :=
  cleanLoop c now s.locked s

/-- `CoreQueue.get_attempts`: raw `HGET` of the attempts hash. -/
def get_attempts (s : QState) (jobid : Str) : Option Nat :=
  s.attempts jobid

/-- `CoreQueue.put(data, high_priority)`: generates `objkey` from the lane
key and the fresh uuid `u`, stores the pickled payload under `objkey`,
pushes `objkey` onto the head of the lane, then builds the returned
`Job(objkey, data, 0, self)` — passing the raw, unpickled `data` to
`Job.__init__` (and the integer `0`, client-encoded as `"0"`, as priority).
When `high_priority` is set on a queue without priority, `self.high` is
`None` and `None + ":"` raises `TypeError` before any write. -/
def put (c : QCfg) (s : QState) (u : Str) (data : Obj) (high_priority : Bool) :
    QState × Except PyError Job :=
  if high_priority then
    match c.high with
    | none => (s, .error .typeError)
    | some hk =>
      let objkey := hk ++ [':'] ++ u
      ({ s with payloads := hset s.payloads objkey (dumps data),
                lists := lpush s.lists hk objkey },
       Job.make objkey (MsgArg.raw data) zeroStr)
  else
    let objkey := c.name ++ [':'] ++ u
    ({ s with payloads := hset s.payloads objkey (dumps data),
              lists := lpush s.lists c.name objkey },
     Job.make objkey (MsgArg.raw data) zeroStr)

/-- `CoreQueue.next(ignore_high)`: runs `clean_jobs`, selects a lane
(`pickNormal` models `random.choice((self.name, self.high))`), `RPOP`s the
chosen lane, and proceeds with the popped value unconditionally — a `None`
pop is client-encoded as the string `"None"`.  If the popped key is already
leased it is `RPUSH`ed back and a lock error is raised; otherwise the lease
is recorded, the attempt counter incremented, and the returned job unpickles
`GET objkey` (which is `None`, raising `TypeError`, when no such payload
exists). -/
def next (c : QCfg) (s : QState) (now : Nat) (ignore_high pickNormal : Bool) :
    QState × Except PyError Job :=
  let s0 := clean_jobs c s now
  let q : Str :=
    match c.high with
    | some hk =>
      if ¬ ignore_high then
        (if 0 < (s0.lists hk).length then hk else c.name)
      else
        (if 0 < (s0.lists hk).length then
          (if pickNormal then c.name else hk)
        else c.name)
    | none => c.name
  let pr := rpop (s0.lists q)
  let s1 : QState := { s0 with lists := fun x => if x = q then pr.2 else s0.lists x }
  let key := pr.1.getD noneStr
  if hexistsL s1.locked key then
    ({ s1 with lists := rpush s1.lists q key },
     .error (.valueError "Problem with locking"))
  else
    let s2 : QState := { s1 with locked := hsetL s1.locked key now }
    let s3 : QState := { s2 with attempts := hincrby s2.attempts key 1 }
    (s3,
     match s3.payloads key with
     | some b => Job.make key (MsgArg.pickled b) q
     | none => Job.make key MsgArg.pynone q)

/-- `CoreQueue.remove(jobid, error, completed)`: rejects `error ∧ completed`
before any write; on the error path records the id in the dead-letter hash
when `keep_dead`; on the completed path records an ack when `with_ack`;
then deletes the lease entry, the attempt counter, and the payload key. -/
def remove (c : QCfg) (s : QState) (jobid : Str) (error completed : Bool)
    (now : Nat) : QState × Except PyError Unit :=
  if error && completed then
    (s, .error (.valueError "Cannot mark a message with both error and complete."))
  else
    let s1 : QState :=
      if error && c.keep_dead then { s with dead := hset s.dead jobid now } else s
    let s2 : QState :=
      if completed && c.with_ack then { s1 with ack := hset s1.ack jobid now } else s1
    ({ s2 with locked := hdelL s2.locked jobid,
               attempts := hdel s2.attempts jobid,
               payloads := hdel s2.payloads jobid },
     .ok ())

/-- `CoreQueue.reschedule(jobid, q, keep_attempts)`: increments the attempt
counter unless `keep_attempts`, deletes the lease entry, and `LPUSH`es the
id onto the list stored at key `q`. -/
def reschedule (s : QState) (jobid q : Str) (keep_attempts : Bool) : QState :=
  let s1 : QState :=
    if keep_attempts then s
    else { s with attempts := hincrby s.attempts jobid 1 }
  let s2 : QState := { s1 with locked := hdelL s1.locked jobid }
  { s2 with lists := lpush s2.lists q jobid }

/-- `CoreQueue.put_result(jobid, data)`: refuses queues built without
results, refuses falsy data, then `SETNX`es the pickled data under
`jobid + ":RESULT"`, raising when the key already exists.  The 24-hour
`EXPIRE` on success is not modelled (no claim depends on TTL). -/
def put_result (c : QCfg) (s : QState) (jobid : Str) (data : Obj) :
    QState × Except PyError Unit :=
  match c.result_suffix with
  | none => (s, .error (.notImplementedError "Cannot store results in this queue."))
  | some suf =>
    if ¬ truthy data then (s, .error (.valueError "Cannot save empty result."))
    else
      match s.results (jobid ++ suf) with
      | some _ => (s, .error (.valueError "Result exists already. Cannot be overwritten."))
      | none => ({ s with results := hset s.results (jobid ++ suf) (dumps data) }, .ok ())

/-- `CoreQueue.get_result(jobid)`: refuses queues built without results,
else returns `GET (jobid + ":RESULT")`. -/
def get_result (c : QCfg) (s : QState) (jobid : Str) :
    Except PyError (Option Obj) :=
  match c.result_suffix with
  | none => .error (.notImplementedError "No stored results in this queue.")
  | some suf => .ok (s.results (jobid ++ suf))

/-- `CoreQueue.size()`: runs `clean_jobs`, then returns the pending-lane
length (both lanes when priority is enabled). -/
def size (c : QCfg) (s : QState) (now : Nat) : Nat :=
  let s0 := clean_jobs c s now
  match c.high with
  | none => (s0.lists c.name).length
  | some hk => (s0.lists c.name).length + (s0.lists hk).length

/-- CPython-2 mixed-type comparison `hget_result < int`, as evaluated by
`Job.error` (`self.attempts < self._q._max_attempts`): `HGET` returns the
raw decimal *string* of the counter, or `None` for a missing field.  In
CPython 2, `None` is smaller than everything, and any `str` is greater than
any `int` (numeric types order before all other types), so the comparison is
`true` exactly when the field is missing — never for a leased job. -/
def pyLtStrInt : Option Nat → Nat → Bool
  | none, _ => true
  | some _, _ => false

/-- `Job.error()`: branches on `self.attempts < self._q._max_attempts`
(the Python-2 string/int comparison above) between
`reschedule(self.id, self.priority)` and `remove(self.id, error=True)`. -/
def Job.error (c : QCfg) (s : QState) (j : Job) (now : Nat) :
    QState × Except PyError Unit :=
  if pyLtStrInt (get_attempts s j.id) c.max_attempts then
    (reschedule s j.id j.priority false, .ok ())
  else
    remove c s j.id true false now

/-- `Job.complete()`: the body is `self.q.remove(self.id, completed=True)`,
but `Job.__init__` only defines `_q`, never `q`; the attribute lookup raises
`AttributeError` before any backend command, leaving state unchanged. -/
def Job.complete (s : QState) (_j : Job) : QState × Except PyError Unit :=
  (s, .error .attributeError)

/-- `Job.defer()`: the body is
`self._q.reschedule(self, self.priority, keep_attempts=True)` — it passes
the `Job` object itself where `reschedule` expects the job id.  Encoding the
object for the backend invokes `Job.__repr__`, which dereferences the
missing attribute `q`, so the pipeline raises (`AttributeError`; a modern
client raises `DataError` even earlier) before any command executes, leaving
state unchanged. -/
def Job.defer (s : QState) (_j : Job) : QState × Except PyError Unit :=
  (s, .error .attributeError)

/-- `CoreQueue.__init__` name validation:
`if not name or not type(name, str): raise ValueError(...)`.
A falsy `name` (the default `None`, or `""`) short-circuits into the
`ValueError`; for every other name the second disjunct evaluates
`type(name, str)` — the two-argument form of `type()` is invalid and raises
`TypeError` — so construction never reaches the registry code below. -/
def initQueue (name : Option Str) : Except PyError Str :=
  match name with
  | none => .error (.valueError "You need to supply a valid string as a name for the queue.")
  | some n =>
    if n = [] then
      .error (.valueError "You need to supply a valid string as a name for the queue.")
    else .error .typeError

/-- Lines 189–190 of `CoreQueue.__init__` (unreachable behind the broken
name check above): register the queue name in the process-wide
`QUEUEREGISTER` hash unless it is already present. -/
def registerQueue (reg : Str → Option Nat) (name : Str) (now : Nat) :
    Str → Option Nat :=
  if (reg name).isSome then reg else hset reg name now

/-! ### Helper lemmas -/

theorem hexistsL_hdelL_self (l : List (Str × Nat)) (k : Str) :
    hexistsL (hdelL l k) k = false := by
  simp only [hexistsL, hdelL, List.any_eq_false, List.mem_filter]
  intro x hx
  simpa using hx.2

theorem hexistsL_false_of (l : List (Str × Nat)) (k k2 : Str)
    (h : hexistsL l k = false) : hexistsL (hdelL l k2) k = false := by
  simp only [hexistsL, List.any_eq_false] at h ⊢
  intro x hx
  exact h x (List.mem_of_mem_filter hx)

theorem cleanStep_attempts (c : QCfg) (now : Nat) (s : QState) (it : Str × Nat) :
    (cleanStep c now s it).attempts = s.attempts := by
  unfold cleanStep
  split
  · split <;> rfl
  · rfl

theorem cleanStep_payloads (c : QCfg) (now : Nat) (s : QState) (it : Str × Nat) :
    (cleanStep c now s it).payloads = s.payloads := by
  unfold cleanStep
  split
  · split <;> rfl
  · rfl

theorem cleanStep_locked_not (c : QCfg) (now : Nat) (s : QState) (it : Str × Nat)
    (k : Str) (h : hexistsL s.locked k = false) :
    hexistsL (cleanStep c now s it).locked k = false := by
  unfold cleanStep
  split
  · split
    · exact hexistsL_false_of _ _ _ h
    · exact hexistsL_false_of _ _ _ h
  · exact h

theorem cleanStep_locked_self (c : QCfg) (now : Nat) (s : QState) (it : Str × Nat)
    (h : it.2 + c.job_timeout < now) :
    hexistsL (cleanStep c now s it).locked it.1 = false := by
  unfold cleanStep
  rw [if_pos h]
  split
  · exact hexistsL_hdelL_self _ _
  · exact hexistsL_hdelL_self _ _

theorem cleanStep_lists_mono (c : QCfg) (now : Nat) (s : QState) (it : Str × Nat)
    (k q : Str) (h : k ∈ s.lists q) : k ∈ (cleanStep c now s it).lists q := by
  unfold cleanStep
  split
  · split
    · simp only [lpush]
      split
      · rename_i heq
        rw [heq] at h
        exact List.mem_cons_of_mem _ h
      · exact h
    · exact h
  · exact h

theorem cleanStep_lists_not (c : QCfg) (now : Nat) (s : QState) (it : Str × Nat)
    (k q : Str) (hl : k ∉ s.lists q) (hp : s.payloads k = none) :
    k ∉ (cleanStep c now s it).lists q := by
  unfold cleanStep
  split
  · split
    · rename_i hsome
      simp only [lpush]
      split
      · rename_i heq
        rw [heq] at hl
        intro hmem
        rcases List.mem_cons.mp hmem with h1 | h2
        · rw [h1] at hp
          rw [hp] at hsome
          simp at hsome
        · exact hl h2
      · exact hl
    · exact hl
  · exact hl

theorem cleanLoop_attempts (c : QCfg) (now : Nat) (L : List (Str × Nat)) :
    ∀ s : QState, (cleanLoop c now L s).attempts = s.attempts := by
  induction L with
  | nil => intro s; rfl
  | cons a rest ih =>
    intro s
    simp only [cleanLoop]
    rw [ih, cleanStep_attempts]

theorem cleanLoop_payloads (c : QCfg) (now : Nat) (L : List (Str × Nat)) :
    ∀ s : QState, (cleanLoop c now L s).payloads = s.payloads := by
  induction L with
  | nil => intro s; rfl
  | cons a rest ih =>
    intro s
    simp only [cleanLoop]
    rw [ih, cleanStep_payloads]

theorem cleanLoop_locked_not (c : QCfg) (now : Nat) (L : List (Str × Nat))
    (k : Str) : ∀ s : QState, hexistsL s.locked k = false →
    hexistsL (cleanLoop c now L s).locked k = false := by
  induction L with
  | nil => intro s h; exact h
  | cons a rest ih =>
    intro s h
    simp only [cleanLoop]
    exact ih _ (cleanStep_locked_not _ _ _ _ _ h)

theorem cleanLoop_lists_mono (c : QCfg) (now : Nat) (L : List (Str × Nat))
    (k q : Str) : ∀ s : QState, k ∈ s.lists q →
    k ∈ (cleanLoop c now L s).lists q := by
  induction L with
  | nil => intro s h; exact h
  | cons a rest ih =>
    intro s h
    simp only [cleanLoop]
    exact ih _ (cleanStep_lists_mono _ _ _ _ _ _ h)

theorem cleanLoop_lists_not (c : QCfg) (now : Nat) (L : List (Str × Nat))
    (k q : Str) : ∀ s : QState, k ∉ s.lists q → s.payloads k = none →
    k ∉ (cleanLoop c now L s).lists q := by
  induction L with
  | nil => intro s h _; exact h
  | cons a rest ih =>
    intro s h hp
    simp only [cleanLoop]
    refine ih _ (cleanStep_lists_not _ _ _ _ _ _ h hp) ?_
    rw [cleanStep_payloads]
    exact hp

theorem cleanLoop_clears (c : QCfg) (now : Nat) (L : List (Str × Nat))
    (k : Str) (ts : Nat) (hexp : ts + c.job_timeout < now) :
    ∀ s : QState, (k, ts) ∈ L →
    hexistsL (cleanLoop c now L s).locked k = false := by
  induction L with
  | nil => intro s h; exact absurd h (List.not_mem_nil _)
  | cons a rest ih =>
    intro s hmem
    simp only [cleanLoop]
    rcases List.mem_cons.mp hmem with h1 | h2
    · exact cleanLoop_locked_not c now rest k (cleanStep c now s a)
        (h1 ▸ cleanStep_locked_self c now s a (h1 ▸ hexp))
    · exact ih _ h2

theorem cleanLoop_pushes (c : QCfg) (now : Nat) (L : List (Str × Nat))
    (k : Str) (ts : Nat) (hexp : ts + c.job_timeout < now) :
    ∀ s : QState, (k, ts) ∈ L → (s.payloads k).isSome = true →
    k ∈ (cleanLoop c now L s).lists (targetLane c k) := by
  induction L with
  | nil => intro s h _; exact absurd h (List.not_mem_nil _)
  | cons a rest ih =>
    intro s hmem hp
    simp only [cleanLoop]
    rcases List.mem_cons.mp hmem with h1 | h2
    · subst h1
      refine cleanLoop_lists_mono c now rest k (targetLane c k)
        (cleanStep c now s (k, ts)) ?_
      unfold cleanStep
      rw [if_pos hexp]
      rw [if_pos hp]
      simp [lpush]
    · refine ih _ h2 ?_
      rw [cleanStep_payloads]
      exact hp

/-! ### Concrete instances used by the witness theorems -/

/-- A plain queue configuration (all feature flags off, defaults). -/
def cW : QCfg := { name := ['q'] }

/-- A queue configuration with result storage enabled. -/
def cR : QCfg := { name := ['q'], with_results := true }

/-- A dead-lettering queue configuration with `max_attempts = 2`. -/
def cD : QCfg := { name := ['q'], max_attempts := 2, keep_dead := true }

/-! ### Claim theorems -/

/-- Claim C1: enqueueing a payload `P` and then dequeuing with no intervening
operations yields, from `next`, a job handle whose payload equals `P` and
whose live-queried attempt count equals 1 — but `put` itself raises
`TypeError` while constructing its own returned handle, because it passes
the raw, unpickled `data` to `Job.__init__`, which calls `pickle.loads` on
it.  The enqueue side effect (payload stored, id pushed) completes before
the crash, so the subsequent `next` still returns the claimed handle. -/
theorem c1_put_handle_crashes_next_delivers (c : QCfg) (u : Str) (P : Obj)
    (now : Nat) (ig pn : Bool) (hpri : c.with_priority = false) :
    (put c QState.empty u P false).2 = Except.error PyError.typeError ∧
    (next c (put c QState.empty u P false).1 now ig pn).2
      = Except.ok ⟨c.name ++ [':'] ++ u, P, c.name⟩ ∧
    get_attempts (next c (put c QState.empty u P false).1 now ig pn).1
      (c.name ++ [':'] ++ u) = some 1 := by
  refine ⟨rfl, ?_, ?_⟩ <;>
    simp [put, next, clean_jobs, cleanLoop, QCfg.high, hpri, lpush, hset,
      hincrby, hexistsL, hsetL, rpop, get_attempts, QState.empty, Job.make,
      loads, dumps]

theorem c1_witness :
    cW.with_priority = false ∧
    ((put cW QState.empty ['u'] 7 false).2 = Except.error PyError.typeError ∧
     (next cW (put cW QState.empty ['u'] 7 false).1 5 false false).2
       = Except.ok ⟨cW.name ++ [':'] ++ ['u'], 7, cW.name⟩ ∧
     get_attempts (next cW (put cW QState.empty ['u'] 7 false).1 5 false false).1
       (cW.name ++ [':'] ++ ['u']) = some 1) :=
  ⟨rfl, c1_put_handle_crashes_next_delivers cW ['u'] 7 5 false false rfl⟩

/-- Claim C2: on a queue whose pending lanes are all empty, `next` is claimed
to return an empty result without acquiring a lease, incrementing a counter,
or raising.  The code has no empty-pop check: `RPOP` yields `None`, which
the Python-2 client encodes as the string `"None"`; `next` then records a
lease for `"None"`, increments its attempt counter, and finally raises
`TypeError` from `pickle.loads(None)` since no payload key `"None"` exists. -/
theorem c2_empty_dequeue_raises (c : QCfg) (s : QState) (now : Nat)
    (ig pn : Bool) (hpri : c.with_priority = false) (hlock : s.locked = [])
    (hlane : s.lists c.name = []) (hpay : s.payloads noneStr = none)
    (hatt : s.attempts noneStr = none) :
    (next c s now ig pn).2 = Except.error PyError.typeError ∧
    hexistsL (next c s now ig pn).1.locked noneStr = true ∧
    get_attempts (next c s now ig pn).1 noneStr = some 1 := by
  refine ⟨?_, ?_, ?_⟩ <;>
    simp [next, clean_jobs, hlock, cleanLoop, QCfg.high, hpri, hlane, rpop,
      hexistsL, hsetL, hincrby, get_attempts, hpay, hatt, Job.make, loads]

theorem c2_witness :
    cW.with_priority = false ∧ QState.empty.locked = [] ∧
    QState.empty.lists cW.name = [] ∧ QState.empty.payloads noneStr = none ∧
    QState.empty.attempts noneStr = none ∧
    ((next cW QState.empty 5 false false).2 = Except.error PyError.typeError ∧
     hexistsL (next cW QState.empty 5 false false).1.locked noneStr = true ∧
     get_attempts (next cW QState.empty 5 false false).1 noneStr = some 1) :=
  ⟨rfl, rfl, rfl, rfl, rfl,
   c2_empty_dequeue_raises cW QState.empty 5 false false rfl rfl rfl rfl rfl⟩

/-- Claim C3: dequeue order within a single lane is FIFO — enqueue `A` then
`B` onto the normal lane of a fresh queue, and the first dequeue returns
`A`, the second `B`: `put` pushes onto the head (`LPUSH`) and `next` pops
from the tail (`RPOP`).  `hfresh` says the first job's lease has not yet
expired at the time of the second dequeue, so `clean_jobs` does not requeue
it in between. -/
theorem c3_fifo_within_lane (c : QCfg) (uA uB : Str) (A B : Obj)
    (t t' : Nat) (ig1 pn1 ig2 pn2 : Bool) (hpri : c.with_priority = false)
    (hu : uA ≠ uB) (hfresh : ¬ (t + c.job_timeout < t')) :
    (next c (put c (put c QState.empty uA A false).1 uB B false).1
        t ig1 pn1).2
      = Except.ok ⟨c.name ++ [':'] ++ uA, A, c.name⟩ ∧
    (next c (next c (put c (put c QState.empty uA A false).1 uB B false).1
        t ig1 pn1).1 t' ig2 pn2).2
      = Except.ok ⟨c.name ++ [':'] ++ uB, B, c.name⟩ := by
  refine ⟨?_, ?_⟩ <;>
    simp [put, next, clean_jobs, cleanLoop, cleanStep, hfresh, QCfg.high,
      hpri, lpush, hset, hincrby, hexistsL, hsetL, rpop, get_attempts,
      QState.empty, Job.make, loads, dumps, hu]

theorem c3_witness :
    cW.with_priority = false ∧ (['a'] : Str) ≠ ['b'] ∧
    ¬ ((5 : Nat) + cW.job_timeout < 6) ∧
    ((next cW (put cW (put cW QState.empty ['a'] 7 false).1 ['b'] 8 false).1
        5 false false).2
      = Except.ok ⟨cW.name ++ [':'] ++ ['a'], 7, cW.name⟩ ∧
     (next cW (next cW (put cW (put cW QState.empty ['a'] 7 false).1
        ['b'] 8 false).1 5 false false).1 6 false false).2
      = Except.ok ⟨cW.name ++ [':'] ++ ['b'], 8, cW.name⟩) :=
  ⟨rfl, by decide, by decide,
   c3_fifo_within_lane cW ['a'] ['b'] 7 8 5 6 false false false false rfl
     (by decide) (by decide)⟩

/-- How `remove` transforms each part of the state when the
`error ∧ completed` guard passes. -/
theorem remove_core (c : QCfg) (s : QState) (id : Str) (e comp : Bool)
    (now : Nat) (h : (e && comp) = false) :
    (remove c s id e comp now).2 = Except.ok () ∧
    (remove c s id e comp now).1.payloads = hdel s.payloads id ∧
    (remove c s id e comp now).1.attempts = hdel s.attempts id ∧
    (remove c s id e comp now).1.locked = hdelL s.locked id ∧
    (remove c s id e comp now).1.lists = s.lists ∧
    (remove c s id e comp now).1.dead
      = (if e && c.keep_dead then hset s.dead id now else s.dead) := by
  cases e <;> cases comp <;> cases hkd : c.keep_dead <;>
    cases hak : c.with_ack <;> simp_all [remove]

/-- Claim C4: `complete` is claimed to remove the job's payload key, lease
entry and attempt counter, with `size()` afterwards excluding the job.  The
delegate `CoreQueue.remove(id, completed=True)` does exactly that — but
`Job.complete` itself reads the nonexistent attribute `self.q` (only `_q`
is ever defined) and raises `AttributeError` before any backend call.  The
last two conjuncts show the job is absent from the lanes summed by `size()`
(which runs `clean_jobs` first) after the intended removal. -/
theorem c4_complete_crashes_remove_works (c : QCfg) (s : QState) (j : Job)
    (now t : Nat) (hn : j.id ∉ s.lists c.name)
    (hh : ∀ hk, c.high = some hk → j.id ∉ s.lists hk) :
    Job.complete s j = (s, Except.error PyError.attributeError) ∧
    (remove c s j.id false true now).2 = Except.ok () ∧
    (remove c s j.id false true now).1.payloads j.id = none ∧
    (remove c s j.id false true now).1.attempts j.id = none ∧
    hexistsL (remove c s j.id false true now).1.locked j.id = false ∧
    j.id ∉ (clean_jobs c (remove c s j.id false true now).1 t).lists c.name ∧
    (∀ hk, c.high = some hk →
      j.id ∉ (clean_jobs c (remove c s j.id false true now).1 t).lists hk) := by
  obtain ⟨h1, h2, h3, h4, h5, _⟩ :=
    remove_core c s j.id false true now (by decide)
  refine ⟨rfl, h1, ?_, ?_, ?_, ?_, ?_⟩
  · rw [h2]; simp [hdel]
  · rw [h3]; simp [hdel]
  · rw [h4]; exact hexistsL_hdelL_self _ _
  · unfold clean_jobs
    refine cleanLoop_lists_not c t _ j.id c.name _ ?_ ?_
    · rw [h5]; exact hn
    · rw [h2]; simp [hdel]
  · intro hk hhk
    unfold clean_jobs
    refine cleanLoop_lists_not c t _ j.id hk _ ?_ ?_
    · rw [h5]; exact hh hk hhk
    · rw [h2]; simp [hdel]

/-- The id of the leased job used by the witness states below. -/
def kwId : Str := ['q', ':', 'u']

/-- A job handle as returned by `next` on the `q` queue. -/
def jW : Job := ⟨kwId, 7, ['q']⟩

/-- A state in which `kwId` is leased with one recorded attempt. -/
def sW4 : QState :=
  { locked := [(kwId, 0)],
    attempts := fun x => if x = kwId then some 1 else none,
    payloads := fun x => if x = kwId then some 7 else none }

theorem c4_witness :
    (jW.id ∉ sW4.lists cW.name) ∧
    (∀ hk, cW.high = some hk → jW.id ∉ sW4.lists hk) ∧
    (Job.complete sW4 jW = (sW4, Except.error PyError.attributeError) ∧
     (remove cW sW4 jW.id false true 9).2 = Except.ok () ∧
     (remove cW sW4 jW.id false true 9).1.payloads jW.id = none ∧
     (remove cW sW4 jW.id false true 9).1.attempts jW.id = none ∧
     hexistsL (remove cW sW4 jW.id false true 9).1.locked jW.id = false ∧
     jW.id ∉ (clean_jobs cW (remove cW sW4 jW.id false true 9).1 3).lists cW.name ∧
     (∀ hk, cW.high = some hk →
       jW.id ∉ (clean_jobs cW (remove cW sW4 jW.id false true 9).1 3).lists hk)) :=
  ⟨by decide, by intro hk h; simp [cW, QCfg.high] at h,
   c4_complete_crashes_remove_works cW sW4 jW 9 3 (by decide)
     (by intro hk h; simp [cW, QCfg.high] at h)⟩

/-- Claim C5: with `attemptCount < maxAttempts`, `error()` is claimed to
requeue the job with the count incremented by one and the lease cleared.
The code compares `self.attempts` — the raw string `HGET` returns — against
the integer `max_attempts`; in Python 2 a `str` is never less than an
`int`, so the comparison is always false and `error()` takes the
removal/dead-letter branch instead (under Python 3 it would raise
`TypeError`).  The first three conjuncts show the wrong branch and its
effect; the last three show that the intended call,
`reschedule(id, lane)`, would have implemented the claim. -/
theorem c5_error_removes_instead_of_requeue (c : QCfg) (s : QState) (j : Job)
    (now n : Nat) (ha : get_attempts s j.id = some n)
    (_hlt : n < c.max_attempts) :
    Job.error c s j now = remove c s j.id true false now ∧
    (Job.error c s j now).1.payloads j.id = none ∧
    (c.keep_dead = true → (Job.error c s j now).1.dead j.id = some now) ∧
    get_attempts (reschedule s j.id j.priority false) j.id = some (n + 1) ∧
    hexistsL (reschedule s j.id j.priority false).locked j.id = false ∧
    j.id ∈ (reschedule s j.id j.priority false).lists j.priority := by
  have hb : Job.error c s j now = remove c s j.id true false now := by
    simp [Job.error, ha, pyLtStrInt]
  obtain ⟨_, h2, _, _, _, h6⟩ := remove_core c s j.id true false now (by decide)
  refine ⟨hb, ?_, ?_, ?_, ?_, ?_⟩
  · rw [hb, h2]; simp [hdel]
  · intro hkd
    rw [hb, h6]
    simp [hkd, hset]
  · have ha2 : s.attempts j.id = some n := ha
    simp [reschedule, get_attempts, hincrby, ha2]
  · simp only [reschedule]
    exact hexistsL_hdelL_self _ _
  · simp [reschedule, lpush]

theorem c5_witness :
    get_attempts sW4 jW.id = some 1 ∧ 1 < cW.max_attempts ∧
    (Job.error cW sW4 jW 9 = remove cW sW4 jW.id true false 9 ∧
     (Job.error cW sW4 jW 9).1.payloads jW.id = none ∧
     (cW.keep_dead = true → (Job.error cW sW4 jW 9).1.dead jW.id = some 9) ∧
     get_attempts (reschedule sW4 jW.id jW.priority false) jW.id = some 2 ∧
     hexistsL (reschedule sW4 jW.id jW.priority false).locked jW.id = false ∧
     jW.id ∈ (reschedule sW4 jW.id jW.priority false).lists jW.priority) :=
  ⟨by decide, by decide,
   c5_error_removes_instead_of_requeue cW sW4 jW 9 1 (by decide) (by decide)⟩

/-- Claim C6: `error()` on a leased job whose attempt count equals
`maxAttempts` removes the job from all pending-lane and lease state and,
when dead-lettering is enabled, records exactly one dead-letter entry for
the id (timestamped `now`; every other id's entry is untouched).  The
string/int comparison in `Job.error` is false here too, so the removal
branch — the correct one for this case — is taken. -/
theorem c6_error_at_max_dead_letters (c : QCfg) (s : QState) (j : Job)
    (now : Nat) (ha : get_attempts s j.id = some c.max_attempts)
    (hn : j.id ∉ s.lists c.name)
    (hh : ∀ hk, c.high = some hk → j.id ∉ s.lists hk) :
    (Job.error c s j now).2 = Except.ok () ∧
    (Job.error c s j now).1.payloads j.id = none ∧
    (Job.error c s j now).1.attempts j.id = none ∧
    hexistsL (Job.error c s j now).1.locked j.id = false ∧
    j.id ∉ (Job.error c s j now).1.lists c.name ∧
    (∀ hk, c.high = some hk → j.id ∉ (Job.error c s j now).1.lists hk) ∧
    (c.keep_dead = true → (Job.error c s j now).1.dead j.id = some now ∧
      ∀ k2, k2 ≠ j.id → (Job.error c s j now).1.dead k2 = s.dead k2) := by
  have hb : Job.error c s j now = remove c s j.id true false now := by
    simp [Job.error, ha, pyLtStrInt]
  obtain ⟨h1, h2, h3, h4, h5, h6⟩ := remove_core c s j.id true false now (by decide)
  rw [hb]
  refine ⟨h1, ?_, ?_, ?_, ?_, ?_, ?_⟩
  · rw [h2]; simp [hdel]
  · rw [h3]; simp [hdel]
  · rw [h4]; exact hexistsL_hdelL_self _ _
  · rw [h5]; exact hn
  · intro hk hhk; rw [h5]; exact hh hk hhk
  · intro hkd
    rw [h6]
    simp only [hkd, Bool.and_true, if_pos]
    constructor
    · simp [hset]
    · intro k2 hk2
      simp [hset, hk2]

/-- A state in which `kwId` is leased and has reached two attempts
(the `max_attempts` of the dead-lettering configuration `cD`). -/
def sW6 : QState :=
  { locked := [(kwId, 0)],
    attempts := fun x => if x = kwId then some 2 else none,
    payloads := fun x => if x = kwId then some 7 else none }

theorem c6_witness :
    get_attempts sW6 jW.id = some cD.max_attempts ∧
    (jW.id ∉ sW6.lists cD.name) ∧
    (∀ hk, cD.high = some hk → jW.id ∉ sW6.lists hk) ∧
    ((Job.error cD sW6 jW 9).2 = Except.ok () ∧
     (Job.error cD sW6 jW 9).1.payloads jW.id = none ∧
     (Job.error cD sW6 jW 9).1.attempts jW.id = none ∧
     hexistsL (Job.error cD sW6 jW 9).1.locked jW.id = false ∧
     jW.id ∉ (Job.error cD sW6 jW 9).1.lists cD.name ∧
     (∀ hk, cD.high = some hk → jW.id ∉ (Job.error cD sW6 jW 9).1.lists hk) ∧
     (cD.keep_dead = true → (Job.error cD sW6 jW 9).1.dead jW.id = some 9 ∧
       ∀ k2, k2 ≠ jW.id → (Job.error cD sW6 jW 9).1.dead k2 = sW6.dead k2)) :=
  ⟨by decide, by decide, by intro hk h; simp [cD, QCfg.high] at h,
   c6_error_at_max_dead_letters cD sW6 jW 9 (by decide) (by decide)
     (by intro hk h; simp [cD, QCfg.high] at h)⟩

/-- Claim C7: `defer()` is claimed to clear the lease and re-enqueue the id
onto its originating lane with the attempt count unchanged.  The code
passes `self` — the `Job` object — instead of `self.id` to `reschedule`;
encoding the object for the backend fails (its `repr` dereferences the
missing attribute `q`), so `defer()` raises and changes nothing.  The
intended call `reschedule(id, lane, keep_attempts=True)` would have
implemented the claim: attempts are untouched, the lease entry is deleted,
and the id is pushed back onto its lane. -/
theorem c7_defer_crashes_reschedule_is_neutral (s : QState) (j : Job) :
    Job.defer s j = (s, Except.error PyError.attributeError) ∧
    (reschedule s j.id j.priority true).attempts = s.attempts ∧
    hexistsL (reschedule s j.id j.priority true).locked j.id = false ∧
    j.id ∈ (reschedule s j.id j.priority true).lists j.priority := by
  refine ⟨rfl, rfl, ?_, ?_⟩
  · simp only [reschedule]
    exact hexistsL_hdelL_self _ _
  · simp [reschedule, lpush]

/-- Claim C8: `put_result` on a queue built without results fails with the
configuration error for every id and data (the feature check precedes the
empty-data check); on a queue with results enabled, a first `put_result`
succeeds, a second one for the same id fails with the duplicate-result
error, and the first stored value remains readable via `get_result`. -/
theorem c8_put_result_write_once :
    (∀ (c : QCfg) (s : QState) (id : Str) (d : Obj), c.with_results = false →
      put_result c s id d
        = (s, Except.error (PyError.notImplementedError
            "Cannot store results in this queue."))) ∧
    (∀ (c : QCfg) (s : QState) (id : Str) (d1 d2 : Obj),
      c.with_results = true → truthy d1 = true → truthy d2 = true →
      s.results (id ++ resultSuffix) = none →
      (put_result c s id d1).2 = Except.ok () ∧
      (put_result c (put_result c s id d1).1 id d2).2
        = Except.error (PyError.valueError
            "Result exists already. Cannot be overwritten.") ∧
      get_result c (put_result c (put_result c s id d1).1 id d2).1 id
        = Except.ok (some (dumps d1))) := by
  constructor
  · intro c s id d h
    simp [put_result, QCfg.result_suffix, h]
  · intro c s id d1 d2 h h1 h2 hres
    refine ⟨?_, ?_, ?_⟩ <;>
      simp [put_result, get_result, QCfg.result_suffix, h, h1, h2, hres, hset]

theorem c8_witness :
    (put_result cW QState.empty ['j'] 5
      = (QState.empty, Except.error (PyError.notImplementedError
          "Cannot store results in this queue."))) ∧
    (cR.with_results = true ∧ truthy 5 = true ∧ truthy 6 = true ∧
     QState.empty.results (['j'] ++ resultSuffix) = none ∧
     ((put_result cR QState.empty ['j'] 5).2 = Except.ok () ∧
      (put_result cR (put_result cR QState.empty ['j'] 5).1 ['j'] 6).2
        = Except.error (PyError.valueError
            "Result exists already. Cannot be overwritten.") ∧
      get_result cR (put_result cR (put_result cR QState.empty ['j'] 5).1 ['j'] 6).1 ['j']
        = Except.ok (some (dumps 5)))) :=
  ⟨c8_put_result_write_once.1 cW QState.empty ['j'] 5 rfl,
   rfl, rfl, rfl, rfl,
   c8_put_result_write_once.2 cR QState.empty ['j'] 5 6 rfl rfl rfl rfl⟩

/-- Claim C9: every lease-table entry whose timestamp plus `job_timeout` is
earlier than `now` is reclaimed by `clean_jobs` (which `next` runs first):
its lease entry is cleared, the attempt counters are untouched, and — when
the payload key still exists — the id is pushed back onto its originating
lane, inferred from the `":HIGH"` marker embedded in the id exactly as the
source's `self.high in item` test does (`targetLane`). -/
theorem c9_stale_lease_reclaimed (c : QCfg) (s : QState) (now : Nat)
    (k : Str) (ts : Nat) (hmem : (k, ts) ∈ s.locked)
    (hexp : ts + c.job_timeout < now) :
    hexistsL (clean_jobs c s now).locked k = false ∧
    (clean_jobs c s now).attempts = s.attempts ∧
    ((s.payloads k).isSome = true →
      k ∈ (clean_jobs c s now).lists (targetLane c k)) := by
  refine ⟨?_, ?_, ?_⟩
  · exact cleanLoop_clears c now s.locked k ts hexp s hmem
  · exact cleanLoop_attempts c now s.locked s
  · intro hp
    exact cleanLoop_pushes c now s.locked k ts hexp s hmem hp

/-- A configuration with a short lease timeout, for exercising reclaim. -/
def cT : QCfg := { name := ['q'], job_timeout := 1 }

/-- A state with one stale lease on `kwId` whose payload still exists. -/
def sW9 : QState :=
  { locked := [(kwId, 2)],
    payloads := fun x => if x = kwId then some 7 else none }

theorem c9_witness :
    (kwId, 2) ∈ sW9.locked ∧ 2 + cT.job_timeout < 9 ∧
    (hexistsL (clean_jobs cT sW9 9).locked kwId = false ∧
     (clean_jobs cT sW9 9).attempts = sW9.attempts ∧
     ((sW9.payloads kwId).isSome = true →
       kwId ∈ (clean_jobs cT sW9 9).lists (targetLane cT kwId))) :=
  ⟨by decide, by decide,
   c9_stale_lease_reclaimed cT sW9 9 kwId 2 (by decide) (by decide)⟩

/-- Claim C10: constructing a queue is claimed to succeed for every valid
string name and to register the name idempotently in `QUEUEREGISTER`.  The
name check `if not name or not type(name, str)` calls the two-argument form
of `type()`, which is invalid: every falsy name raises `ValueError` and
every other name raises `TypeError`, so construction never reaches the
registration code.  The registration lines themselves (modelled as
`registerQueue`) are idempotent as claimed: a second registration of the
same name leaves the registry unchanged. -/
theorem c10_init_always_raises_register_idempotent :
    (∀ name : Option Str, ∃ e, initQueue name = Except.error e) ∧
    (∀ (reg : Str → Option Nat) (nm : Str) (t t' : Nat),
      registerQueue (registerQueue reg nm t) nm t' = registerQueue reg nm t) ∧
    (∀ (reg : Str → Option Nat) (nm : Str) (t : Nat), reg nm = none →
      registerQueue reg nm t nm = some t) := by
  refine ⟨?_, ?_, ?_⟩
  · intro name
    match name with
    | none => exact ⟨_, rfl⟩
    | some n =>
      by_cases h : n = []
      · exact ⟨PyError.valueError
          "You need to supply a valid string as a name for the queue.",
          by simp [initQueue, h]⟩
      · exact ⟨PyError.typeError, by simp [initQueue, h]⟩
  · intro reg nm t t'
    by_cases h : (reg nm).isSome
    · simp [registerQueue, h]
    · simp [registerQueue, h, hset]
  · intro reg nm t h
    simp [registerQueue, h, hset]

theorem c10_witness :
    (fun _ : Str => (none : Option Nat)) ['q'] = none ∧
    registerQueue (fun _ : Str => (none : Option Nat)) ['q'] 3 ['q'] = some 3 :=
  ⟨rfl,
   c10_init_always_raises_register_idempotent.2.2
     (fun _ => none) ['q'] 3 rfl⟩

end Corequeue
